import Mathlib

/-!
Verification development for the aimusicboards submission/queue/voting service.

The handlers are translated as pure Lean functions over explicit state:
the `submissions`, `scores`, `votes` and `vote_ip_locks` tables become
lists of records, a SQL `UPDATE ... WHERE` becomes a `List.map` guarded by
the `WHERE` predicate, and the D1 `meta.changes` count becomes an `any`
test on the same predicate.  ISO-8601 timestamp strings compare
lexicographically exactly in chronological order, so timestamps are
modelled as `Nat`.  JS numbers reaching the handlers are modelled as
`Option Rat` (`none` plays the role of NaN).  External primitives
(HMAC-SHA256, SHA-256, URL validity) are taken as function parameters.
Admin-token and HTTP-method guards precede every modelled code path and
are independent of the properties below, so they are not modelled.
-/

/-- Whitespace as matched by the JS regex `\s` (the cases relevant here). -/
def isWsChar (c : Char) : Bool :=
  c == ' ' || c == '\t' || c == '\n' || c == '\r'

/-- JS `String.prototype.trim`: strip whitespace from both ends. -/
def jsTrim (s : String) : String :=
  ⟨(s.data.dropWhile isWsChar).reverse.dropWhile isWsChar |>.reverse⟩

/-- SQLite `TRIM(x)`: strips only the space character from both ends. -/
def sqlTrim (s : String) : String :=
  ⟨(s.data.dropWhile (· == ' ')).reverse.dropWhile (· == ' ') |>.reverse⟩

/-- ASCII lowercasing, as both SQLite `LOWER` and (on ASCII data) JS
`toLowerCase` perform. -/
def lowerAscii (s : String) : String :=
  ⟨s.data.map Char.toLower⟩

/-- ASCII uppercasing (JS `toUpperCase` on ASCII data). -/
def upperAscii (s : String) : String :=
  ⟨s.data.map Char.toUpper⟩

/-- Helper for `collapseWs`: the flag records whether the previous
character was whitespace (so the current run already emitted its space). -/
def collapseWsAux : Bool → List Char → List Char
  | _, [] => []
  | inWs, c :: cs =>
    if isWsChar c then
      if inWs then collapseWsAux true cs else ' ' :: collapseWsAux true cs
    else
      c :: collapseWsAux false cs

/-- Collapse every maximal run of whitespace to a single space:
JS `replace(/\s+/g, " ")`. -/
def collapseWs (l : List Char) : List Char :=
  collapseWsAux false l

/-- The normalisation applied to artist/title before the duplicate query:
`x.toLowerCase().replace(/\s+/g, " ").trim()`. -/
def normKey (s : String) : String :=
  jsTrim ⟨collapseWs (lowerAscii s).data⟩

/-- Numeric value of a digit string. -/
def natOfDigits (cs : List Char) : Nat :=
  cs.foldl (fun acc c => acc * 10 + (c.toNat - '0'.toNat)) 0

/-- JS `parseInt(s, 10)`: skip leading whitespace, optional sign, then the
longest digit prefix; NaN (`none`) when no digit is found. -/
def jsParseInt (s : String) : Option Int :=
  let cs := s.data.dropWhile isWsChar
  let core : List Char → Option Nat := fun l =>
    let ds := l.takeWhile Char.isDigit
    if ds.isEmpty then none else some (natOfDigits ds)
  match cs with
  | '-' :: rest => (core rest).map (fun n => -(n : Int))
  | '+' :: rest => (core rest).map (fun n => (n : Int))
  | l => (core l).map (fun n => (n : Int))

/-- JS `Number(s)` restricted to the shapes that occur as settings values:
optional sign, digits, optional fractional digits.  The empty (or
all-whitespace) string coerces to `0`; anything else is NaN (`none`). -/
def jsNumber (s : String) : Option Rat :=
  let cs := (s.data.dropWhile isWsChar).reverse.dropWhile isWsChar |>.reverse
  if cs.isEmpty then some 0 else
  let signed : List Char → Option Rat := fun l =>
    let ip := l.takeWhile Char.isDigit
    let rest := l.drop ip.length
    match rest with
    | [] => if ip.isEmpty then none else some (natOfDigits ip : Rat)
    | '.' :: fr =>
      if fr.all Char.isDigit ∧ ¬(ip.isEmpty ∧ fr.isEmpty) then
        some ((natOfDigits ip : Rat) + (natOfDigits fr : Rat) / ((10 : Rat) ^ fr.length))
      else none
    | _ => none
  match cs with
  | '-' :: rest => (signed rest).map (fun q => -q)
  | '+' :: rest => signed rest
  | l => signed l

/-- JS `Math.trunc` on a (finite) number: round toward zero.
`Int.div` is T-division, which truncates toward zero. -/
def jsTrunc (q : Rat) : Int :=
  Int.tdiv q.num (q.den : Int)

/-- `clampInt` from `functions/api/vote.ts`: coerce to a number, reject
NaN, truncate toward zero, reject results outside `[lo, hi]`. -/
def clampInt (n : Option Rat) (lo hi : Int) : Option Int :=
  match n with
  | none => none
  | some q =>
    let i := jsTrunc q
    if i < lo || i > hi then none else some i

/-- A row of the `submissions` table. -/
structure Submission where
  id : String
  created_at : Nat
  artist_name : String
  track_title : String
  genre : String
  track_url : String
  notes : Option String
  priority : Int
  paid : Bool
  status : String
  claimed_by : Option String
  claimed_at : Option Nat
  payment_status : String
  paid_type : Option String
  stripe_session_id : Option String
deriving DecidableEq

/-- A row of the `scores` table (`submission_id` is its primary key). -/
structure ScoreRec where
  submission_id : String
  scored_at : Nat
  scored_by : String
  lyrics : Int
  delivery : Int
  production : Int
  originality : Int
  replay : Int
  total : Int
  approved : Bool
  notes : Option String
deriving DecidableEq

/-- A row of the `votes` table. -/
structure VoteRec where
  submission_id : String
  voter_id : String
  rating : Int
  ip_hash : String
  created_at : Nat
deriving DecidableEq

/-- The `settings` table: a key-value list, last write wins via upsert;
`getSetting` reads it fresh on every call. -/
def getSetting (settings : List (String × String)) (key : String) : Option String :=
  (settings.find? (fun kv => kv.1 == key)).map (·.2)

/-- `stripe_webhook.ts` per-row update for `checkout.session.completed`:
`SET payment_status='PAID', paid=1, priority=?, paid_type=COALESCE(paid_type,?)
 WHERE stripe_session_id=?` with `priority = paidType == "UPNEXT" ? 2 : 1`. -/
def applySession (sessionId paidType : String) (s : Submission) : Submission :=
  if s.stripe_session_id == some sessionId then
    { s with
      payment_status := "PAID"
      paid := true
      priority := if paidType == "UPNEXT" then 2 else 1
      paid_type := some (s.paid_type.getD paidType) }
  else s

/-- The whole-table effect of the checkout-completed update. -/
def checkoutUpdate (db : List Submission) (sessionId paidType : String) :
    List Submission :=
  db.map (applySession sessionId paidType)

/-- `claimed_by IS NULL OR claimed_by = ''`. -/
def claimedByEmpty (s : Submission) : Bool :=
  match s.claimed_by with
  | none => true
  | some x => x == ""

/-- Precondition of the `WHERE` clause of the conditional claim update in
`admin_claim.ts`: `status IN ('NEW','SCORED') AND (claimed_by IS NULL OR
claimed_by = '')`. -/
def claimPre (s : Submission) : Bool :=
  (s.status == "NEW" || s.status == "SCORED") && claimedByEmpty s

/-- The `SET` part of the claim update. -/
def claimUpdate (claimant : String) (now : Nat) (s : Submission) : Submission :=
  { s with status := "IN_REVIEW", claimed_by := some claimant, claimed_at := some now }

/-- `admin_claim.ts`: single conditional `UPDATE`; reports conflict (409)
when `meta.changes < 1`, success (200) otherwise. -/
def adminClaim (db : List Submission) (id claimant : String) (now : Nat) :
    List Submission × Nat :=
  if db.any (fun s => s.id == id && claimPre s) then
    (db.map (fun s => if s.id == id && claimPre s then claimUpdate claimant now s else s),
     200)
  else
    (db, 409)

/-- The second claim endpoint (`part_006`): same shape but its `WHERE`
clause is only `id = ? AND status = 'NEW'` — no `SCORED`, no
`claimed_by` check. -/
def claimNew (db : List Submission) (id claimant : String) (now : Nat) :
    List Submission × Nat :=
  if db.any (fun s => s.id == id && s.status == "NEW") then
    (db.map (fun s => if s.id == id && s.status == "NEW" then claimUpdate claimant now s else s),
     200)
  else
    (db, 409)

/-- A concrete submission row used by witnesses, with the column defaults
of the schema (`priority 0`, `paid 0`, `status 'NEW'`, claim fields NULL). -/
def baseSub : Submission :=
  { id := "s1", created_at := 1, artist_name := "artist", track_title := "title",
    genre := "g", track_url := "https://x/t.mp3", notes := none, priority := 0,
    paid := false, status := "NEW", claimed_by := none, claimed_at := none,
    payment_status := "NONE", paid_type := none, stripe_session_id := none }

/-- The `CASE` expression of the `ORDER BY` in `admin_queue.ts`
(`part_008`): confirmed-paid UPNEXT, confirmed-paid SKIP, pending UPNEXT,
pending SKIP, everything else. -/
def tierRank (s : Submission) : Nat :=
  if s.payment_status == "PAID" && s.paid_type == some "UPNEXT" then 0
  else if s.payment_status == "PAID" && s.paid_type == some "SKIP" then 1
  else if s.payment_status == "PENDING" && s.paid_type == some "UPNEXT" then 2
  else if s.payment_status == "PENDING" && s.paid_type == some "SKIP" then 3
  else 9

/-- `WHERE status IN ('NEW','IN_REVIEW')`. -/
def activeStatus (s : Submission) : Bool :=
  s.status == "NEW" || s.status == "IN_REVIEW"

/-- The sort key of `admin_queue.ts`: the tier `CASE` value ascending,
then `created_at` ascending.  (The `priority` column is not part of the
`ORDER BY` of this view.) -/
def queueOrder (a b : Submission) : Prop :=
  tierRank a < tierRank b ∨ (tierRank a = tierRank b ∧ a.created_at ≤ b.created_at)

instance : DecidableRel queueOrder := fun a b => by
  unfold queueOrder
  infer_instance

instance : IsTotal Submission queueOrder := by
  constructor
  intro a b
  unfold queueOrder
  omega

instance : IsTrans Submission queueOrder := by
  constructor
  intro a b c hab hbc
  unfold queueOrder at *
  omega

/-- `admin_queue.ts`: `SELECT ... WHERE status IN ('NEW','IN_REVIEW')
ORDER BY <tier CASE>, created_at ASC LIMIT 200`.  `ORDER BY` is modelled
as a deterministic sort by the same key. -/
def adminQueue (db : List Submission) : List Submission :=
  (List.insertionSort queueOrder (db.filter activeStatus)).take 200

/-- Scenario submission A: paid, upgrade tier, payment confirmed. -/
def qSubA : Submission :=
  { baseSub with
    id := "A"
    created_at := 10
    paid := true
    payment_status := "PAID"
    paid_type := some "UPNEXT" }

/-- Scenario submission B: paid, base tier, payment confirmed. -/
def qSubB : Submission :=
  { baseSub with
    id := "B"
    created_at := 5
    paid := true
    payment_status := "PAID"
    paid_type := some "SKIP" }

/-- Scenario submission C: unpaid, created earlier than D. -/
def qSubC : Submission :=
  { baseSub with id := "C", created_at := 1 }

/-- Scenario submission D: unpaid, created later than C. -/
def qSubD : Submission :=
  { baseSub with id := "D", created_at := 2 }

/-- The claim's wording for unpaid entries, stated from the spec for
comparison with the code's order: among unpaid entries, priority value
descending, then creation time ascending. -/
def specUnpaidPriorityDesc (l : List Submission) : Prop :=
  l.Pairwise (fun a b => a.paid = false → b.paid = false →
    b.priority < a.priority ∨ (a.priority = b.priority ∧ a.created_at ≤ b.created_at))

instance : DecidablePred specUnpaidPriorityDesc := fun l => by
  unfold specUnpaidPriorityDesc
  infer_instance

/-- Unpaid submission with a nonzero priority value, created later. -/
def qSubX : Submission :=
  { baseSub with id := "X", created_at := 2, priority := 5 }

/-- Unpaid submission with priority 0, created earlier. -/
def qSubY : Submission :=
  { baseSub with id := "Y", created_at := 1, priority := 0 }

/-- A submission request body (the values of `body.artist_name` etc.
after the `String(x || "")` coercion, before trimming). -/
structure SubmitReq where
  artist_name : String
  track_title : String
  genre : String
  track_url : String
  notes : String
deriving DecidableEq

/-- Count of active unpaid submissions:
`COUNT(*) WHERE paid = 0 AND status IN ('NEW','IN_REVIEW')`. -/
def freeQueueCount (db : List Submission) : Nat :=
  (db.filter (fun s => s.paid == false && activeStatus s)).length

/-- `(await getSetting(env, "submissions_mode")) || "manual"`:
missing or empty value falls back to the default. -/
def effectiveMode (settings : List (String × String)) : String :=
  let raw := (getSetting settings "submissions_mode").getD ""
  if raw == "" then "manual" else raw

/-- `(await getSetting(env, "submissions_max_queue")) || "50"`. -/
def effectiveMaxQueue (settings : List (String × String)) : String :=
  let raw := (getSetting settings "submissions_max_queue").getD ""
  if raw == "" then "50" else raw

/-- The `submissions_open_free` value computed by the public status
endpoint (`part_009`): in `auto` mode it is `free_queue_count < maxQueue`
(false when `maxQueue` is NaN, as in JS), otherwise the manual flag
`submissions_open === "1"`. -/
def statusOpenFree (settings : List (String × String)) (db : List Submission) : Bool :=
  let manualOpen := getSetting settings "submissions_open" == some "1"
  let autoOpenFree :=
    match jsNumber (effectiveMaxQueue settings) with
    | some q => decide ((freeQueueCount db : Rat) < q)
    | none => false
  if effectiveMode settings == "auto" then autoOpenFree else manualOpen

/-- The unpaid submission endpoint (`part_010`): open-flag check, body
parse, required fields, URL sanity (external `new URL` modelled by the
`validUrl` parameter), duplicate checks by exact `track_url` and by
`LOWER(TRIM(...))` of the stored artist/title against the JS-normalised
pair, then `INSERT ... VALUES (?, ?, ..., 0, 0, 'NEW')`. -/
def submitHandler (validUrl : String → Bool) (settings : List (String × String))
    (db : List Submission) (body : Option SubmitReq) (newId : String) (now : Nat) :
    List Submission × Nat :=
  if getSetting settings "submissions_open" = some "1" then
    match body with
    | none => (db, 400)
    | some b =>
      let artist := jsTrim b.artist_name
      let title := jsTrim b.track_title
      let genre := jsTrim b.genre
      let url := jsTrim b.track_url
      let notes := jsTrim b.notes
      if artist == "" || title == "" || genre == "" || url == "" then (db, 400)
      else if ¬ validUrl url then (db, 400)
      else if db.any (fun s => s.track_url == url && activeStatus s) then (db, 409)
      else if db.any (fun s =>
          lowerAscii (sqlTrim s.artist_name) == normKey artist &&
          lowerAscii (sqlTrim s.track_title) == normKey title &&
          activeStatus s) then (db, 409)
      else
        (db ++ [{ id := newId, created_at := now, artist_name := artist,
                  track_title := title, genre := genre, track_url := url,
                  notes := if notes == "" then none else some notes,
                  priority := 0, paid := false, status := "NEW",
                  claimed_by := none, claimed_at := none,
                  payment_status := "NONE", paid_type := none,
                  stripe_session_id := none }], 200)
  else (db, 403)

/-- Settings describing automatic mode at capacity 1 with the manual
open flag raised. -/
def capSettings : List (String × String) :=
  [("submissions_open", "1"), ("submissions_mode", "auto"),
   ("submissions_max_queue", "1")]

/-- A fresh, well-formed unpaid submission request. -/
def capReq : SubmitReq :=
  { artist_name := "other artist", track_title := "other title",
    genre := "g", track_url := "https://x/other.mp3", notes := "" }

/-- An active submission whose artist name carries an internal double
space. -/
def dupSub : Submission :=
  { baseSub with
    id := "d1"
    artist_name := "A  B"
    track_title := "T"
    track_url := "https://x/a.mp3" }

/-- A resubmission of the same artist and title (identical strings, so
certainly the same whitespace-collapsed normalised pair), with a new
track link. -/
def dupReq : SubmitReq :=
  { artist_name := "A  B", track_title := "T", genre := "g",
    track_url := "https://x/b.mp3", notes := "" }

/-- The XOR-accumulating loop of `timingSafeEqual`:
`for i: out |= a.charCodeAt(i) ^ b.charCodeAt(i)`. -/
def tseFold (la lb : List Char) : Nat :=
  (List.zipWith (fun c d => Char.toNat c ^^^ Char.toNat d) la lb).foldl
    (fun acc x => acc ||| x) 0

/-- `timingSafeEqual` from `stripe_webhook.ts`: length check, then the
constant-time XOR/OR accumulation with a final zero test. -/
def timingSafeEqual (a b : String) : Bool :=
  a.length == b.length && tseFold a.data b.data == 0

/-- The parsed payload of a `checkout.session.completed` event: the event
type, `String(session?.id || "")` and `String(session?.metadata?.paid_type
|| "")` (before uppercasing).  A failed `JSON.parse` is `none` at the use
site. -/
structure StripeEvent where
  type_ : String
  sessionId : String
  paidType : String
deriving DecidableEq

/-- Event processing after signature verification: non-checkout events
are acknowledged without effect; a checkout completion without a session
id is a 400; otherwise the conditional payment update runs with the
uppercased tier tag. -/
def handleEvent (db : List Submission) (event : Option StripeEvent) :
    List Submission × Nat :=
  match event with
  | none => (db, 400)
  | some e =>
    if e.type_ == "checkout.session.completed" then
      if e.sessionId == "" then (db, 400)
      else (checkoutUpdate db e.sessionId (upperAscii e.paidType), 200)
    else (db, 200)

/-- The webhook handler of `stripe_webhook.ts`.  `hmac secret msg` stands
for the hex HMAC-SHA256 primitive; `hdr` is the parsed
`stripe-signature` header (`t` value and the list of `v1` values), `none`
when the header is absent; `event` is the `JSON.parse` result of
`rawBody`; `now` is the receiver's clock in seconds. -/
def stripeWebhook (hmac : String → String → String) (secret : String)
    (hdr : Option (String × List String)) (rawBody : String)
    (event : Option StripeEvent) (now : Int) (db : List Submission) :
    List Submission × Nat :=
  if secret == "" then (db, 500) else
  match hdr with
  | none => (db, 400)
  | some (t, v1) =>
    if t == "" || v1.isEmpty then (db, 400) else
    match jsParseInt t with
    | none => (db, 400)
    | some ts =>
      if (now - ts).natAbs > 300 then (db, 400) else
      if v1.any (fun sig => timingSafeEqual sig (hmac secret (t ++ "." ++ rawBody))) then
        handleEvent db event
      else (db, 400)

/-- The claim's acceptance condition, stated in the spec's terms: the
header carries a timestamp within the 300-second freshness window of the
receiver's clock, and at least one supplied signature is equal (as a
string) to the hex HMAC of `{timestamp}.{raw body}` under the shared
secret. -/
def sigAccepted (hmac : String → String → String) (secret : String)
    (hdr : Option (String × List String)) (rawBody : String) (now : Int) : Prop :=
  ∃ t v1, hdr = some (t, v1) ∧
    (∃ n : Int, jsParseInt t = some n ∧ (now - n).natAbs ≤ 300) ∧
    (∃ sig ∈ v1, sig = hmac secret (t ++ "." ++ rawBody))

/-- The durable state touched by the vote endpoint: the `scores` table it
reads for eligibility and the `vote_ip_locks` and `votes` tables it
writes.  The uniqueness keys of the two vote tables — `(submission_id,
ip_hash)` for locks and `(submission_id, voter_id)` for votes — are
modelled from the spec: their `CREATE TABLE` statements are not part of
the source tree, only `vote.ts`, which relies on the store raising a
uniqueness violation on conflicting inserts. -/
structure VoteState where
  scores : List ScoreRec
  locks : List (String × String)
  votes : List VoteRec
deriving DecidableEq

/-- `isLeaderboardSong`: first `scores` row for the submission, then
`Number(row.total || 0) >= 40` (no row means not eligible). -/
def isLeaderboardSong (scores : List ScoreRec) (sid : String) : Bool :=
  match scores.find? (fun r => r.submission_id == sid) with
  | none => false
  | some r => 40 ≤ r.total

/-- The body of a vote request: `submission_id` after `String(x || "")`
and the rating as the JS number `Number(body.rating)` (`none` = NaN). -/
structure VoteBody where
  submission_id : String
  rating : Option Rat
deriving DecidableEq

/-- The effective voter identity: the trimmed `voter_id` cookie when it
is present and nonempty, otherwise the freshly generated UUID. -/
def voterOf (cookieVoter : Option String) (newVoterId : String) : String :=
  let cv := jsTrim (cookieVoter.getD "")
  if cv == "" then newVoterId else cv

/-- `vote.ts` `onRequestPost`.  `hash` models SHA-256 hex; `cookieVoter`
is the `voter_id` cookie when present; `newVoterId` the UUID generated
when it is missing or empty; `ip` the client address.  An insert into
`vote_ip_locks` or `votes` fails with a uniqueness violation exactly when
the key — `(submission_id, ip_hash)` respectively `(submission_id,
voter_id)` — is already present; on a failed vote insert the freshly
inserted lock is deleted again (`DELETE ... WHERE submission_id = ? AND
ip_hash = ?`).  Returns the new durable state and the HTTP status. -/
def voteHandler (hash : String → String) (salt : String) (st : VoteState)
    (body : Option VoteBody) (cookieVoter : Option String)
    (newVoterId ip : String) (now : Nat) : VoteState × Nat :=
  match body with
  | none => (st, 400)
  | some b =>
    let sid := jsTrim b.submission_id
    match clampInt b.rating 1 10 with
    | none => (st, 400)
    | some rating =>
      if sid == "" then (st, 400)
      else if ¬ isLeaderboardSong st.scores sid then (st, 403)
      else
        let voter := voterOf cookieVoter newVoterId
        let iph := hash (ip ++ ":" ++ salt)
        if st.locks.any (fun l => l.1 == sid && l.2 == iph) then (st, 409)
        else
          let st1 : VoteState := { st with locks := st.locks ++ [(sid, iph)] }
          if st.votes.any (fun v => v.submission_id == sid && v.voter_id == voter) then
            ({ st1 with
                locks := st1.locks.filter (fun l => !(l.1 == sid && l.2 == iph)) },
             409)
          else
            ({ st1 with
                votes := st1.votes ++
                  [{ submission_id := sid, voter_id := voter, rating := rating,
                     ip_hash := iph, created_at := now }] },
             200)

/-- A score row granting vote eligibility (total 45 ≥ 40). -/
def wScore : ScoreRec :=
  { submission_id := "s1", scored_at := 1, scored_by := "j", lyrics := 9,
    delivery := 9, production := 9, originality := 9, replay := 9,
    total := 45, approved := true, notes := none }

/-- An existing vote on `s1` by voter `v9` from hashed address `ip1:slt`. -/
def wVote : VoteRec :=
  { submission_id := "s1", voter_id := "v9", rating := 8,
    ip_hash := "ip1:slt", created_at := 1 }

/-- Vote-endpoint state: one approved score, one existing vote with its
network-identity lock. -/
def wVState : VoteState :=
  { scores := [wScore], locks := [("s1", "ip1:slt")], votes := [wVote] }

/-- The state touched by the admin score endpoint (`part_000`): the
`scores` table it upserts and the `submissions` table whose status it
forces. -/
structure ScoreState where
  scores : List ScoreRec
  submissions : List Submission
deriving DecidableEq

/-- The request body of the score endpoint: `submission_id` and `notes`
after `String(x || "")`, `scored_by` as sent (missing/empty falls back to
`"desktop"`), and the five sub-scores as JS numbers (`none` = NaN, as
produced by `Number(body?.x ?? NaN)`). -/
structure ScoreBody where
  submission_id : String
  scored_by : Option String
  lyrics : Option Rat
  delivery : Option Rat
  production : Option Rat
  originality : Option Rat
  replay : Option Rat
  notes : String
deriving DecidableEq

/-- `String(body?.scored_by || "desktop")`. -/
def effectiveScoredBy (o : Option String) : String :=
  let raw := o.getD ""
  if raw == "" then "desktop" else raw

/-- Validation of one sub-score: `Number.isInteger(n) && 0 <= n <= 10`
(the code rejects when `!Number.isInteger(n) || n < 0 || n > 10`). -/
def validScorePart : Option Rat → Bool
  | none => false
  | some q => q.den == 1 && decide (0 ≤ q) && decide (q ≤ 10)

/-- The integer value of a validated sub-score (`q.num` since a valid
score has denominator 1). -/
def scoreVal : Option Rat → Int
  | none => 0
  | some q => q.num

/-- `INSERT ... ON CONFLICT(submission_id) DO UPDATE SET ...`: replace
the row with the same key when one exists, append otherwise
(`submission_id` is the primary key of `scores`). -/
def upsertScore (scores : List ScoreRec) (rec : ScoreRec) : List ScoreRec :=
  if scores.any (fun r => r.submission_id == rec.submission_id) then
    scores.map (fun r => if r.submission_id == rec.submission_id then rec else r)
  else scores ++ [rec]

/-- The score record written by the score endpoint for a validated body:
`total` is the sum of the five sub-scores and `approved = total >= 40`,
recomputed at write time. -/
def scoreRecOf (b : ScoreBody) (now : Nat) : ScoreRec :=
  let total := scoreVal b.lyrics + scoreVal b.delivery + scoreVal b.production +
    scoreVal b.originality + scoreVal b.replay
  { submission_id := b.submission_id, scored_at := now,
    scored_by := effectiveScoredBy b.scored_by,
    lyrics := scoreVal b.lyrics, delivery := scoreVal b.delivery,
    production := scoreVal b.production, originality := scoreVal b.originality,
    replay := scoreVal b.replay, total := total,
    approved := decide (40 ≤ total),
    notes := if jsTrim b.notes == "" then none else some (jsTrim b.notes) }

/-- The admin score endpoint (`part_000`): validate, upsert the score,
then `UPDATE submissions SET status='SCORED' WHERE id=?` — no condition
on the prior status, on `claimed_by`, or on who claimed it. -/
def scoreHandler (st : ScoreState) (b : ScoreBody) (now : Nat) :
    ScoreState × Nat :=
  if b.submission_id == "" then (st, 400)
  else if ¬ (validScorePart b.lyrics && validScorePart b.delivery &&
      validScorePart b.production && validScorePart b.originality &&
      validScorePart b.replay) then (st, 400)
  else
    ({ scores := upsertScore st.scores (scoreRecOf b now),
       submissions := st.submissions.map
         (fun s => if s.id == b.submission_id then { s with status := "SCORED" } else s) },
     200)

/-- A submission currently claimed by another judge. -/
def claimedSub : Submission :=
  { baseSub with
    id := "s1"
    status := "IN_REVIEW"
    claimed_by := some "other-judge"
    claimed_at := some 3 }

/-- A valid score request for `s1` from a different judge. -/
def wScoreBody : ScoreBody :=
  { submission_id := "s1", scored_by := some "judge", lyrics := some 9,
    delivery := some 9, production := some 9, originality := some 8,
    replay := some 8, notes := "" }

/-- C5: replaying the same checkout-completed notification (same session
reference and tier tag) is idempotent: the update is a pure per-row
function of the `(session, tier)` pair, matching rows get
`payment_status = PAID`, `paid = true`, `priority` = the tier rank with
UPNEXT (2) ranked above SKIP (1), and `paid_type` is written only when it
was not already set (first write wins); non-matching rows are untouched. -/
theorem checkout_update_idempotent (db : List Submission) (sessionId paidType : String) :
    checkoutUpdate (checkoutUpdate db sessionId paidType) sessionId paidType =
      checkoutUpdate db sessionId paidType ∧
    (∀ s : Submission, s.stripe_session_id = some sessionId →
      (applySession sessionId paidType s).payment_status = "PAID" ∧
      (applySession sessionId paidType s).paid = true ∧
      (applySession sessionId paidType s).priority =
        (if paidType = "UPNEXT" then 2 else 1) ∧
      (∀ t0 : String, s.paid_type = some t0 →
        (applySession sessionId paidType s).paid_type = some t0) ∧
      (s.paid_type = none →
        (applySession sessionId paidType s).paid_type = some paidType)) ∧
    (∀ s : Submission, s.stripe_session_id ≠ some sessionId →
      applySession sessionId paidType s = s) ∧
    ((if ("UPNEXT" : String) = "UPNEXT" then (2 : Int) else 1) >
      (if ("SKIP" : String) = "UPNEXT" then (2 : Int) else 1)) := by
  refine ⟨?_, ?_, ?_, by decide⟩
  · unfold checkoutUpdate
    rw [List.map_map]
    apply List.map_congr_left
    intro s _
    simp only [Function.comp_apply, applySession]
    by_cases h : s.stripe_session_id = some sessionId
    · simp [h]
    · simp [h]
  · intro s h
    refine ⟨by simp [applySession, h], by simp [applySession, h],
      by simp [applySession, h], ?_, ?_⟩
    · intro t0 ht
      simp [applySession, h, ht]
    · intro ht
      simp [applySession, h, ht]
  · intro s h
    simp [applySession, h]

/-- Witness for `checkout_update_idempotent` at a concrete submission. -/
theorem checkout_update_idempotent_witness :
    ({ id := "s1", created_at := 1, artist_name := "a", track_title := "t",
       genre := "g", track_url := "u", notes := none, priority := 0,
       paid := false, status := "NEW", claimed_by := none, claimed_at := none,
       payment_status := "PENDING", paid_type := some "SKIP",
       stripe_session_id := some "cs_1" : Submission}).stripe_session_id = some "cs_1" ∧
    (applySession "cs_1" "UPNEXT"
      { id := "s1", created_at := 1, artist_name := "a", track_title := "t",
        genre := "g", track_url := "u", notes := none, priority := 0,
        paid := false, status := "NEW", claimed_by := none, claimed_at := none,
        payment_status := "PENDING", paid_type := some "SKIP",
        stripe_session_id := some "cs_1" }).paid_type = some "SKIP" := by
  refine ⟨rfl, ?_⟩
  exact ((checkout_update_idempotent [] "cs_1" "UPNEXT").2.1 _ rfl).2.2.2.1 "SKIP" rfl

/-- Any row produced by the claim update fails the claim precondition. -/
theorem claimPre_claimUpdate (claimant : String) (now : Nat) (s : Submission) :
    claimPre (claimUpdate claimant now s) = false := by
  simp [claimPre, claimUpdate]

/-- C1 (amended): the `admin_claim` endpoint performs the claim as a single
conditional update.  When some row has the requested id, status NEW or
SCORED and an empty `claimed_by`, the request succeeds (200) and exactly
the eligible rows with that id become IN_REVIEW with `claimed_by` the
claimant and `claimed_at` the current time, all other rows surviving
unchanged; when no row satisfies the precondition the request fails with
409 and the table is returned unchanged; and after a successful claim any
further claim on the same id fails with 409 and changes nothing, so of two
serialized claim attempts exactly one succeeds. -/
theorem admin_claim_atomic (db : List Submission) (id claimant : String) (now : Nat) :
    ((∃ s ∈ db, s.id = id ∧ claimPre s = true) →
      (adminClaim db id claimant now).2 = 200 ∧
      (∀ s ∈ db, s.id = id → claimPre s = true →
        claimUpdate claimant now s ∈ (adminClaim db id claimant now).1 ∧
        (claimUpdate claimant now s).status = "IN_REVIEW" ∧
        (claimUpdate claimant now s).claimed_by = some claimant ∧
        (claimUpdate claimant now s).claimed_at = some now) ∧
      (∀ s ∈ db, ¬(s.id = id ∧ claimPre s = true) →
        s ∈ (adminClaim db id claimant now).1) ∧
      (∀ c2 : String, ∀ n2 : Nat,
        adminClaim (adminClaim db id claimant now).1 id c2 n2 =
          ((adminClaim db id claimant now).1, 409))) ∧
    ((¬ ∃ s ∈ db, s.id = id ∧ claimPre s = true) →
      adminClaim db id claimant now = (db, 409)) := by
  have hany : (db.any (fun s => s.id == id && claimPre s) = true) ↔
      (∃ s ∈ db, s.id = id ∧ claimPre s = true) := by
    simp [List.any_eq_true, Bool.and_eq_true, beq_iff_eq]
  constructor
  · intro hex
    have ha : db.any (fun s => s.id == id && claimPre s) = true := hany.mpr hex
    have hres : adminClaim db id claimant now =
        (db.map (fun s => if s.id == id && claimPre s then claimUpdate claimant now s else s),
         200) := by
      simp [adminClaim, ha]
    refine ⟨by rw [hres], ?_, ?_, ?_⟩
    · intro s hs hid hpre
      refine ⟨?_, by simp [claimUpdate], by simp [claimUpdate], by simp [claimUpdate]⟩
      rw [hres]
      have : (if s.id == id && claimPre s then claimUpdate claimant now s else s) =
          claimUpdate claimant now s := by
        simp [hid, hpre]
      exact this ▸ List.mem_map_of_mem _ hs
    · intro s hs hnot
      rw [hres]
      have hb : (s.id == id && claimPre s) = false := by
        by_contra h
        exact hnot (by simpa [Bool.and_eq_true, beq_iff_eq] using
          (Bool.not_eq_false _).mp h)
      have : (if s.id == id && claimPre s then claimUpdate claimant now s else s) = s := by
        simp [hb]
      exact this ▸ List.mem_map_of_mem _ hs
    · intro c2 n2
      rw [hres]
      have hnone : (db.map (fun s => if s.id == id && claimPre s
          then claimUpdate claimant now s else s)).any
            (fun s => s.id == id && claimPre s) = false := by
        rw [Bool.eq_false_iff]
        intro hsome
        obtain ⟨x, hx, hpx⟩ := List.any_eq_true.mp hsome
        obtain ⟨s, hs, hfs⟩ := List.mem_map.mp hx
        by_cases hc : (s.id == id && claimPre s) = true
        · rw [if_pos hc] at hfs
          rw [← hfs] at hpx
          rw [claimPre_claimUpdate] at hpx
          simp at hpx
        · rw [if_neg hc] at hfs
          rw [← hfs] at hpx
          exact hc hpx
      simp only [adminClaim, hnone]
      simp
  · intro hnex
    have ha : db.any (fun s => s.id == id && claimPre s) = false := by
      rw [Bool.eq_false_iff]
      intro h
      exact hnex (hany.mp h)
    simp [adminClaim, ha]

/-- Witness for `admin_claim_atomic`: claiming a fresh NEW submission
succeeds, and a second claim on the same id then fails with 409. -/
theorem admin_claim_atomic_witness :
    (adminClaim [baseSub] "s1" "judge" 7).2 = 200 ∧
    (∀ c2 : String, ∀ n2 : Nat,
      adminClaim (adminClaim [baseSub] "s1" "judge" 7).1 "s1" c2 n2 =
        ((adminClaim [baseSub] "s1" "judge" 7).1, 409)) :=
  ⟨((admin_claim_atomic [baseSub] "s1" "judge" 7).1
      ⟨baseSub, by simp, by decide⟩).1,
   ((admin_claim_atomic [baseSub] "s1" "judge" 7).1
      ⟨baseSub, by simp, by decide⟩).2.2.2⟩

/-- C1 as stated is false: the repository's second claim endpoint
(`part_006`) only claims from status NEW, so a claim request for a
submission with status SCORED and empty `claimed_by` — which satisfies the
claim's precondition, shown by the first conjunct — fails there with 409
instead of succeeding. -/
theorem claim_new_rejects_eligible_scored :
    claimPre { baseSub with status := "SCORED" } = true ∧
    claimNew [{ baseSub with status := "SCORED" }] "s1" "judge" 7 =
      ([{ baseSub with status := "SCORED" }], 409) := by
  decide

/-- C2 (amended): the judge queue view returns exactly the NEW/IN_REVIEW
submissions, capped at 200, sorted by the payment tier (confirmed-paid
UPNEXT, confirmed-paid SKIP, pending UPNEXT, pending SKIP, everything
else last) and, within a tier, by creation time ascending only — the
`priority` column is not consulted; in particular for A (paid, upgrade
tier, confirmed), B (paid, base tier, confirmed), C (unpaid, earlier),
D (unpaid, later) the returned order is A, B, C, D.  The view is a pure
function of the table (no side effects). -/
theorem admin_queue_view (db : List Submission) :
    (adminQueue db).length ≤ 200 ∧
    (∀ s ∈ adminQueue db, s ∈ db ∧ (s.status = "NEW" ∨ s.status = "IN_REVIEW")) ∧
    ((db.filter activeStatus).length ≤ 200 →
      (adminQueue db).Perm (db.filter activeStatus)) ∧
    (adminQueue db).Sorted queueOrder ∧
    adminQueue [qSubC, qSubA, qSubD, qSubB] = [qSubA, qSubB, qSubC, qSubD] := by
  refine ⟨?_, ?_, ?_, ?_, by decide⟩
  · exact List.length_take_le _ _
  · intro s hs
    have h1 : s ∈ List.insertionSort queueOrder (db.filter activeStatus) :=
      List.take_subset _ _ hs
    have h2 : s ∈ db.filter activeStatus :=
      (List.perm_insertionSort queueOrder _).mem_iff.mp h1
    have h3 := List.mem_filter.mp h2
    refine ⟨h3.1, ?_⟩
    have := h3.2
    simpa [activeStatus] using this
  · intro hlen
    have hlen' : (List.insertionSort queueOrder (db.filter activeStatus)).length ≤ 200 := by
      rw [(List.perm_insertionSort queueOrder _).length_eq]
      exact hlen
    unfold adminQueue
    rw [List.take_of_length_le hlen']
    exact List.perm_insertionSort queueOrder _
  · exact (List.sorted_insertionSort queueOrder _).sublist (List.take_sublist _ _)

/-- Witness for `admin_queue_view`: on a one-row table the queue is a
permutation of the active rows, and that row is returned with its NEW
status. -/
theorem admin_queue_view_witness :
    (adminQueue [qSubA]).Perm ([qSubA].filter activeStatus) ∧
    (qSubA ∈ [qSubA] ∧ (qSubA.status = "NEW" ∨ qSubA.status = "IN_REVIEW")) :=
  ⟨(admin_queue_view [qSubA]).2.2.1 (by decide),
   (admin_queue_view [qSubA]).2.1 qSubA (by decide)⟩

/-- C2 as stated is false on the code: for two unpaid active submissions
X (priority 5, created later) and Y (priority 0, created earlier) the
view returns Y before X — creation order — whereas the claim's
"unpaid entries ordered by priority value descending" requires X first. -/
theorem admin_queue_not_priority_desc :
    ¬ specUnpaidPriorityDesc (adminQueue [qSubX, qSubY]) ∧
    adminQueue [qSubX, qSubY] = [qSubY, qSubX] ∧
    qSubY.priority < qSubX.priority ∧
    qSubX.paid = false ∧ qSubY.paid = false := by
  decide

/-- C3 (amended): the submission endpoint reads the settings fresh on
each attempt but consults only the `submissions_open` flag — its result
is unchanged by any modification of the mode or capacity settings — and
rejects with 403 exactly when that flag is not `"1"`; the automatic-mode
capacity comparison (active unpaid count below capacity) is computed only
by the read-only status endpoint and is not enforced on the creation
path.  Paid submissions are created elsewhere and are never capacity
gated. -/
theorem submit_open_flag_only (validUrl : String → Bool)
    (settings settings' : List (String × String)) (db : List Submission)
    (body : Option SubmitReq) (newId : String) (now : Nat) :
    (getSetting settings "submissions_open" = getSetting settings' "submissions_open" →
      submitHandler validUrl settings db body newId now =
        submitHandler validUrl settings' db body newId now) ∧
    (getSetting settings "submissions_open" ≠ some "1" →
      submitHandler validUrl settings db body newId now = (db, 403)) ∧
    (effectiveMode settings = "auto" →
      ∀ cap : Rat, jsNumber (effectiveMaxQueue settings) = some cap →
        (statusOpenFree settings db = true ↔ (freeQueueCount db : Rat) < cap)) := by
  refine ⟨?_, ?_, ?_⟩
  · intro h
    unfold submitHandler
    rw [h]
  · intro h
    unfold submitHandler
    rw [if_neg h]
  · intro hmode cap hcap
    unfold statusOpenFree
    rw [hcap]
    simp [hmode]

/-- Witness for `submit_open_flag_only`: with the open flag lowered the
endpoint answers 403 and inserts nothing, and in auto mode at capacity 1
with one active unpaid row the status endpoint reports closed. -/
theorem submit_open_flag_only_witness :
    submitHandler (fun _ => true) [("submissions_open", "0")] [] none "n1" 9 =
      ([], 403) ∧
    (statusOpenFree capSettings [qSubC] = true ↔ ((freeQueueCount [qSubC] : Rat) < 1)) :=
  ⟨(submit_open_flag_only (fun _ => true) [("submissions_open", "0")]
      [("submissions_open", "0")] [] none "n1" 9).2.1 (by decide),
   (submit_open_flag_only (fun _ => true) capSettings capSettings [qSubC]
      none "n1" 9).2.2 (by decide) 1 (by decide)⟩

/-- C3 as stated is false on the code: in automatic mode at capacity
(capacity 1, one active unpaid submission, so the status endpoint itself
reports free submissions closed — first conjunct) a fresh unpaid
submission attempt is still accepted and inserted, because the creation
path checks only the `submissions_open` flag. -/
theorem submit_not_capacity_gated :
    statusOpenFree capSettings [qSubC] = false ∧
    (submitHandler (fun _ => true) capSettings [qSubC] (some capReq) "n1" 9).2 = 200 ∧
    (submitHandler (fun _ => true) capSettings [qSubC] (some capReq) "n1" 9).1.length = 2 := by
  decide

/-- C4: evaluation at the failing input.  The stored and submitted
artist+title have equal whitespace-collapsed, lowercased normalisations
(first two conjuncts) and the stored copy is still active (`NEW`), yet the
submit endpoint accepts the duplicate and inserts a second row: the SQL
side compares `LOWER(TRIM(artist_name))`, which trims only the ends and
keeps the internal double space, against the collapsed key, so the
duplicate check cannot match. -/
theorem submit_duplicate_detection_gap :
    normKey (jsTrim dupReq.artist_name) = normKey dupSub.artist_name ∧
    normKey (jsTrim dupReq.track_title) = normKey dupSub.track_title ∧
    dupSub.status = "NEW" ∧
    (submitHandler (fun _ => true) [("submissions_open", "1")] [dupSub]
      (some dupReq) "n2" 9).2 = 200 ∧
    (submitHandler (fun _ => true) [("submissions_open", "1")] [dupSub]
      (some dupReq) "n2" 9).1.length = 2 := by
  decide

/-- Bitwise OR of naturals is zero exactly when both are. -/
theorem nat_or_eq_zero (a b : Nat) : a ||| b = 0 ↔ a = 0 ∧ b = 0 := by
  constructor
  · intro h
    constructor
    · apply Nat.eq_of_testBit_eq
      intro i
      have hi := congrArg (fun x => x.testBit i) h
      simp only [Nat.testBit_or, Nat.zero_testBit, Bool.or_eq_false_iff] at hi
      simp [hi.1]
    · apply Nat.eq_of_testBit_eq
      intro i
      have hi := congrArg (fun x => x.testBit i) h
      simp only [Nat.testBit_or, Nat.zero_testBit, Bool.or_eq_false_iff] at hi
      simp [hi.2]
  · rintro ⟨rfl, rfl⟩
    simp

/-- The OR accumulation is zero exactly when the accumulator and every
element are zero. -/
theorem foldl_or_eq_zero (l : List Nat) (acc : Nat) :
    l.foldl (fun a x => a ||| x) acc = 0 ↔ acc = 0 ∧ ∀ x ∈ l, x = 0 := by
  induction l generalizing acc with
  | nil => simp
  | cons y ys ih =>
    simp only [List.foldl_cons, ih, nat_or_eq_zero, List.mem_cons]
    constructor
    · rintro ⟨⟨h1, h2⟩, h3⟩
      exact ⟨h1, fun x hx => hx.elim (fun h => h ▸ h2) (h3 x)⟩
    · rintro ⟨h1, h2⟩
      exact ⟨⟨h1, h2 y (Or.inl rfl)⟩, fun x hx => h2 x (Or.inr hx)⟩

/-- Character XOR is zero exactly on equal characters. -/
theorem char_xor_eq_zero (c d : Char) : Char.toNat c ^^^ Char.toNat d = 0 ↔ c = d := by
  constructor
  · intro h
    exact Char.ext (UInt32.ext (Nat.xor_eq_zero.mp h))
  · rintro rfl
    simp

/-- Equal lengths plus all-zero pairwise XORs characterise equal lists. -/
theorem zip_xor_eq_iff (la lb : List Char) :
    (la.length = lb.length ∧
      ∀ x ∈ List.zipWith (fun c d => Char.toNat c ^^^ Char.toNat d) la lb, x = 0) ↔
      la = lb := by
  induction la generalizing lb with
  | nil => cases lb <;> simp
  | cons c cs ih =>
    cases lb with
    | nil => simp
    | cons d ds =>
      simp only [List.length_cons, List.zipWith_cons_cons, List.forall_mem_cons,
        List.cons.injEq, Nat.succ.injEq]
      constructor
      · rintro ⟨hl, hx, hxs⟩
        exact ⟨(char_xor_eq_zero c d).mp hx, (ih ds).mp ⟨hl, hxs⟩⟩
      · rintro ⟨rfl, rfl⟩
        exact ⟨rfl, (char_xor_eq_zero c c).mpr rfl, ((ih cs).mpr rfl).2⟩

/-- The constant-time comparison of the webhook decides string equality. -/
theorem timingSafeEqual_iff (a b : String) : timingSafeEqual a b = true ↔ a = b := by
  unfold timingSafeEqual tseFold
  rw [Bool.and_eq_true, beq_iff_eq, beq_iff_eq, foldl_or_eq_zero]
  constructor
  · rintro ⟨h1, _, h2⟩
    have hd := (zip_xor_eq_iff a.data b.data).mp ⟨h1, h2⟩
    cases a
    cases b
    exact congrArg String.mk hd
  · rintro rfl
    have := (zip_xor_eq_iff a.data a.data).mpr rfl
    exact ⟨rfl, rfl, this.2⟩

/-- The empty string has no digit prefix. -/
theorem jsParseInt_empty : jsParseInt "" = none := rfl

/-- C6: with the shared secret configured, a notification is handed to
event processing if and only if its signature header carries a timestamp
within the 300-second freshness window and at least one supplied
signature equals — the code's constant-time comparison decides exactly
string equality, `timingSafeEqual_iff` — the hex HMAC of
`{timestamp}.{raw body}` under the shared secret; every notification
failing the condition is answered 400 with the submissions table
unchanged. -/
theorem stripe_webhook_verification (hmac : String → String → String)
    (secret : String) (hdr : Option (String × List String)) (rawBody : String)
    (event : Option StripeEvent) (now : Int) (db : List Submission)
    (hsec : secret ≠ "") :
    (sigAccepted hmac secret hdr rawBody now →
      stripeWebhook hmac secret hdr rawBody event now db = handleEvent db event) ∧
    (¬ sigAccepted hmac secret hdr rawBody now →
      stripeWebhook hmac secret hdr rawBody event now db = (db, 400)) := by
  have hs : (secret == "") = false := by
    rw [beq_eq_false_iff_ne]
    exact hsec
  constructor
  · intro hacc
    obtain ⟨t, v1, hhdr, ⟨n, hparse, hfresh⟩, ⟨sig, hmem, hsigeq⟩⟩ := hacc
    subst hhdr
    have ht : (t == "") = false := by
      rw [beq_eq_false_iff_ne]
      intro h
      subst h
      rw [jsParseInt_empty] at hparse
      exact Option.noConfusion hparse
    have hv : v1.isEmpty = false := by
      cases v1 with
      | nil => exact absurd hmem (List.not_mem_nil _)
      | cons a l => rfl
    have hany : v1.any
        (fun sig => timingSafeEqual sig (hmac secret (t ++ "." ++ rawBody))) = true :=
      List.any_eq_true.mpr ⟨sig, hmem, (timingSafeEqual_iff _ _).mpr hsigeq⟩
    simp only [stripeWebhook, hs, ht, hv, hparse, hany, Bool.or_self, Bool.false_eq_true,
      if_false, if_true]
    rw [if_neg (by omega)]
  · intro hnacc
    simp only [stripeWebhook, hs, Bool.false_eq_true, if_false]
    cases hdr with
    | none => rfl
    | some p =>
      obtain ⟨t, v1⟩ := p
      by_cases ht : (t == "" || v1.isEmpty) = true
      · simp [ht]
      · rw [Bool.not_eq_true] at ht
        simp only [ht, Bool.false_eq_true, if_false]
        cases hp : jsParseInt t with
        | none => rfl
        | some n =>
          by_cases hf : (now - n).natAbs > 300
          · simp [hf]
          · cases hA : v1.any
                (fun sig => timingSafeEqual sig (hmac secret (t ++ "." ++ rawBody))) with
            | true =>
              obtain ⟨sig, hmem, htse⟩ := List.any_eq_true.mp hA
              exact absurd
                ⟨t, v1, rfl, ⟨n, hp, by omega⟩,
                  ⟨sig, hmem, (timingSafeEqual_iff _ _).mp htse⟩⟩ hnacc
            | false => simp [hf, hA]

/-- Witness for `stripe_webhook_verification`: a concrete fresh,
correctly signed notification is handed to event processing. -/
theorem stripe_webhook_verification_witness :
    stripeWebhook (fun k m => k ++ "|" ++ m) "whsec"
      (some ("100", ["whsec|100.BODY"])) "BODY"
      (some { type_ := "other", sessionId := "", paidType := "" }) 120 [] =
      handleEvent [] (some { type_ := "other", sessionId := "", paidType := "" }) :=
  (stripe_webhook_verification (fun k m => k ++ "|" ++ m) "whsec"
      (some ("100", ["whsec|100.BODY"])) "BODY"
      (some { type_ := "other", sessionId := "", paidType := "" }) 120 []
      (by decide)).1
    ⟨"100", ["whsec|100.BODY"], rfl, ⟨100, by decide, by decide⟩,
      ⟨"whsec|100.BODY", by simp, by decide⟩⟩

/-- C7: a well-formed, eligible vote request that duplicates an existing
vote — same voter identity, or same hashed network identity even with a
fresh voter identity — is rejected with 409 and leaves the durable state
exactly unchanged: when the lock insert succeeded but the vote insert
then hit the voter-identity uniqueness violation, the compensating delete
removes the freshly inserted lock, so the network identity is not left
blocked. -/
theorem vote_duplicate_conflict (hash : String → String) (salt : String)
    (st : VoteState) (b : VoteBody) (cookieVoter : Option String)
    (newVoterId ip : String) (now : Nat)
    (hrate : ∃ r, clampInt b.rating 1 10 = some r)
    (hsid : jsTrim b.submission_id ≠ "")
    (helig : isLeaderboardSong st.scores (jsTrim b.submission_id) = true)
    (hdup :
      (∃ v ∈ st.votes, v.submission_id = jsTrim b.submission_id ∧
          v.voter_id = voterOf cookieVoter newVoterId) ∨
      (∃ l ∈ st.locks, l.1 = jsTrim b.submission_id ∧
          l.2 = hash (ip ++ ":" ++ salt))) :
    voteHandler hash salt st (some b) cookieVoter newVoterId ip now = (st, 409) := by
  obtain ⟨r, hr⟩ := hrate
  have hsidb : (jsTrim b.submission_id == "") = false := beq_eq_false_iff_ne.mpr hsid
  simp only [voteHandler, hr, hsidb, Bool.false_eq_true, if_false]
  rw [if_neg (by simp [helig])]
  by_cases hlock : st.locks.any
      (fun l => l.1 == jsTrim b.submission_id && l.2 == hash (ip ++ ":" ++ salt)) = true
  · rw [if_pos hlock]
  · rw [if_neg hlock]
    rw [Bool.not_eq_true] at hlock
    have hvotes : st.votes.any
        (fun v => v.submission_id == jsTrim b.submission_id &&
          v.voter_id == voterOf cookieVoter newVoterId) = true := by
      rcases hdup with hv | hl
      · obtain ⟨v, hm, h1, h2⟩ := hv
        exact List.any_eq_true.mpr ⟨v, hm, by simp [h1, h2]⟩
      · obtain ⟨l, hm, h1, h2⟩ := hl
        have : st.locks.any
            (fun l => l.1 == jsTrim b.submission_id &&
              l.2 == hash (ip ++ ":" ++ salt)) = true :=
          List.any_eq_true.mpr ⟨l, hm, by simp [h1, h2]⟩
        rw [this] at hlock
        exact Bool.noConfusion hlock
    rw [if_pos hvotes]
    have hkeep : st.locks.filter
        (fun l => !(l.1 == jsTrim b.submission_id &&
          l.2 == hash (ip ++ ":" ++ salt))) = st.locks := by
      apply List.filter_eq_self.mpr
      intro a ha
      have h := List.any_eq_false.mp hlock a ha
      rw [Bool.not_eq_true] at h
      simp only [h, Bool.not_false]
    have hsing : List.filter
        (fun l => !(l.1 == jsTrim b.submission_id &&
          l.2 == hash (ip ++ ":" ++ salt)))
        [(jsTrim b.submission_id, hash (ip ++ ":" ++ salt))] = [] := by
      simp
    rw [List.filter_append, hkeep, hsing, List.append_nil]

/-- Witness for `vote_duplicate_conflict`: the same voter returning from
a different address is rejected with 409 and the state — including the
lock table — is exactly as before. -/
theorem vote_duplicate_conflict_witness :
    voteHandler (fun s => s) "slt" wVState
      (some { submission_id := "s1", rating := some 7 }) (some "v9") "u1" "ip2" 5 =
      (wVState, 409) :=
  vote_duplicate_conflict (fun s => s) "slt" wVState
    { submission_id := "s1", rating := some 7 } (some "v9") "u1" "ip2" 5
    ⟨7, by decide⟩ (by decide) (by decide)
    (Or.inl ⟨wVote, by simp [wVState], by decide, by decide⟩)

/-- C8: vote eligibility.  With the `scores` primary key (at most one row
per submission) the code's check is exactly "some score row for the
submission has `total ≥ 40`" — the claim's approved score; every vote
request for a submission without such a score is rejected with the state
unchanged, whatever the rating; and for a well-formed, non-duplicate
request acceptance is equivalent to eligibility. -/
theorem vote_eligibility (hash : String → String) (salt : String)
    (st : VoteState) (b : VoteBody) (cookieVoter : Option String)
    (newVoterId ip : String) (now : Nat) :
    (st.scores.Pairwise (fun r1 r2 => r1.submission_id ≠ r2.submission_id) →
      ∀ sid : String,
        (isLeaderboardSong st.scores sid = true ↔
          ∃ r ∈ st.scores, r.submission_id = sid ∧ 40 ≤ r.total)) ∧
    (isLeaderboardSong st.scores (jsTrim b.submission_id) = false →
      (voteHandler hash salt st (some b) cookieVoter newVoterId ip now).1 = st ∧
      (voteHandler hash salt st (some b) cookieVoter newVoterId ip now).2 ≠ 200) ∧
    ((∃ r, clampInt b.rating 1 10 = some r) → jsTrim b.submission_id ≠ "" →
      st.locks.any (fun l => l.1 == jsTrim b.submission_id &&
        l.2 == hash (ip ++ ":" ++ salt)) = false →
      st.votes.any (fun v => v.submission_id == jsTrim b.submission_id &&
        v.voter_id == voterOf cookieVoter newVoterId) = false →
      ((voteHandler hash salt st (some b) cookieVoter newVoterId ip now).2 = 200 ↔
        isLeaderboardSong st.scores (jsTrim b.submission_id) = true)) := by
  refine ⟨?_, ?_, ?_⟩
  · intro hpw sid
    unfold isLeaderboardSong
    cases hf : st.scores.find? (fun r => r.submission_id == sid) with
    | none =>
      simp only [Bool.false_eq_true, false_iff]
      rintro ⟨r, hm, he, _⟩
      have := List.find?_eq_none.mp hf r hm
      exact this (by simp [he])
    | some r =>
      have hbeq := List.find?_some hf
      have hmem := List.mem_of_find?_eq_some hf
      have hr : r.submission_id = sid := by simpa using hbeq
      constructor
      · intro h40
        exact ⟨r, hmem, hr, of_decide_eq_true h40⟩
      · rintro ⟨r', hm', he', h40'⟩
        have hrr : r' = r := by
          by_cases heq : r' = r
          · exact heq
          · have hsymm : Symmetric
                (fun r1 r2 : ScoreRec => r1.submission_id ≠ r2.submission_id) :=
              fun _ _ h he => h he.symm
            exact absurd (he'.trans hr.symm) (hpw.forall hsymm hm' hmem heq)
        subst hrr
        exact decide_eq_true h40'
  · intro hfalse
    cases hc : clampInt b.rating 1 10 with
    | none =>
      exact ⟨by simp [voteHandler, hc], by simp [voteHandler, hc]⟩
    | some r =>
      by_cases hsid : jsTrim b.submission_id = ""
      · exact ⟨by simp [voteHandler, hc, hsid], by simp [voteHandler, hc, hsid]⟩
      · exact ⟨by simp [voteHandler, hc, hsid, hfalse],
          by simp [voteHandler, hc, hsid, hfalse]⟩
  · rintro ⟨r, hr⟩ hsid hlock hvote
    have hsidb : (jsTrim b.submission_id == "") = false := beq_eq_false_iff_ne.mpr hsid
    by_cases helig : isLeaderboardSong st.scores (jsTrim b.submission_id) = true
    · simp only [voteHandler, hr, hsidb, Bool.false_eq_true, if_false]
      rw [if_neg (by simp [helig]), if_neg (by simp [hlock]), if_neg (by simp [hvote])]
      simp [helig]
    · rw [Bool.not_eq_true] at helig
      simp only [voteHandler, hr, hsidb, Bool.false_eq_true, if_false]
      rw [if_pos (by simp [helig])]
      simp [helig]

/-- Witness for `vote_eligibility` on the concrete state `wVState`: the
eligibility check matches the approved-score characterisation, and a
fresh well-formed vote is accepted exactly because the score total is at
least 40. -/
theorem vote_eligibility_witness :
    (isLeaderboardSong wVState.scores "s1" = true ↔
      ∃ r ∈ wVState.scores, r.submission_id = "s1" ∧ 40 ≤ r.total) ∧
    ((voteHandler (fun s => s) "slt" wVState
        (some { submission_id := "s1", rating := some 7 })
        (some "v2") "u2" "ip3" 5).2 = 200 ↔
      isLeaderboardSong wVState.scores (jsTrim "s1") = true) :=
  ⟨(vote_eligibility (fun s => s) "slt" wVState
      { submission_id := "s1", rating := some 7 } (some "v2") "u2" "ip3" 5).1
      (by decide) "s1",
   (vote_eligibility (fun s => s) "slt" wVState
      { submission_id := "s1", rating := some 7 } (some "v2") "u2" "ip3" 5).2.2
      ⟨7, by decide⟩ (by decide) (by decide) (by decide)⟩

/-- A value accepted by `clampInt` lies within the requested bounds. -/
theorem clampInt_range (n : Option Rat) (lo hi r : Int)
    (h : clampInt n lo hi = some r) : lo ≤ r ∧ r ≤ hi := by
  cases n with
  | none => exact Option.noConfusion h
  | some q =>
    simp only [clampInt] at h
    by_cases hc : (decide (jsTrunc q < lo) || decide (jsTrunc q > hi)) = true
    · rw [if_pos hc] at h
      exact Option.noConfusion h
    · rw [if_neg hc] at h
      have hqr := Option.some.inj h
      simp only [Bool.or_eq_true, decide_eq_true_eq, not_or] at hc
      omega

/-- A rating within bounds after truncation is accepted by `clampInt`
as its truncation. -/
theorem clampInt_of_bounds (q : Rat) (lo hi : Int)
    (h1 : lo ≤ jsTrunc q) (h2 : jsTrunc q ≤ hi) :
    clampInt (some q) lo hi = some (jsTrunc q) := by
  simp only [clampInt]
  rw [if_neg]
  simp only [Bool.or_eq_true, decide_eq_true_eq, not_or]
  omega

/-- C10: the vote endpoint truncates the rating toward zero before
validating.  `9.7` truncates to `9` and is accepted; a well-formed,
eligible, non-duplicate request whose rating truncates into `[1, 10]` is
accepted and recorded with the truncated integer; a missing (NaN) rating
or one whose truncation falls outside `[1, 10]` is rejected as a missing
field with 400 — before any duplicate check, so never 409 — with the
state unchanged; and the handler preserves the invariant that every
stored rating is an integer in `[1, 10]`. -/
theorem vote_rating_truncation (hash : String → String) (salt : String)
    (st : VoteState) (b : VoteBody) (cookieVoter : Option String)
    (newVoterId ip : String) (now : Nat) :
    clampInt (some (mkRat 97 10)) 1 10 = some 9 ∧
    (∀ q : Rat, b.rating = some q → 1 ≤ jsTrunc q → jsTrunc q ≤ 10 →
      jsTrim b.submission_id ≠ "" →
      isLeaderboardSong st.scores (jsTrim b.submission_id) = true →
      st.locks.any (fun l => l.1 == jsTrim b.submission_id &&
        l.2 == hash (ip ++ ":" ++ salt)) = false →
      st.votes.any (fun v => v.submission_id == jsTrim b.submission_id &&
        v.voter_id == voterOf cookieVoter newVoterId) = false →
      (voteHandler hash salt st (some b) cookieVoter newVoterId ip now).2 = 200 ∧
      ({ submission_id := jsTrim b.submission_id,
         voter_id := voterOf cookieVoter newVoterId, rating := jsTrunc q,
         ip_hash := hash (ip ++ ":" ++ salt), created_at := now } : VoteRec) ∈
        (voteHandler hash salt st (some b) cookieVoter newVoterId ip now).1.votes) ∧
    ((b.rating = none ∨ ∃ q, b.rating = some q ∧ (jsTrunc q < 1 ∨ 10 < jsTrunc q)) →
      voteHandler hash salt st (some b) cookieVoter newVoterId ip now = (st, 400)) ∧
    ((∀ v ∈ st.votes, 1 ≤ v.rating ∧ v.rating ≤ 10) →
      ∀ v ∈ (voteHandler hash salt st (some b) cookieVoter newVoterId ip now).1.votes,
        1 ≤ v.rating ∧ v.rating ≤ 10) := by
  refine ⟨by decide, ?_, ?_, ?_⟩
  · intro q hq h1 h2 hsid helig hlock hvote
    have hc : clampInt b.rating 1 10 = some (jsTrunc q) := by
      rw [hq]
      exact clampInt_of_bounds q 1 10 h1 h2
    have hsidb : (jsTrim b.submission_id == "") = false := beq_eq_false_iff_ne.mpr hsid
    simp only [voteHandler, hc, hsidb, Bool.false_eq_true, if_false]
    rw [if_neg (by simp [helig]), if_neg (by simp [hlock]), if_neg (by simp [hvote])]
    exact ⟨rfl, by simp⟩
  · intro hbad
    have hc : clampInt b.rating 1 10 = none := by
      rcases hbad with hn | ⟨q, hq, hout⟩
      · rw [hn]
        rfl
      · rw [hq]
        simp only [clampInt]
        rw [if_pos]
        simp only [Bool.or_eq_true, decide_eq_true_eq]
        omega
    simp [voteHandler, hc]
  · intro hinv v hv
    cases hc : clampInt b.rating 1 10 with
    | none =>
      simp only [voteHandler, hc] at hv
      exact hinv v hv
    | some r =>
      have hr := clampInt_range b.rating 1 10 r hc
      simp only [voteHandler, hc] at hv
      by_cases h1 : (jsTrim b.submission_id == "") = true
      · rw [if_pos h1] at hv
        exact hinv v hv
      · rw [if_neg h1] at hv
        by_cases h2 : ¬ isLeaderboardSong st.scores (jsTrim b.submission_id) = true
        · rw [if_pos h2] at hv
          exact hinv v hv
        · rw [if_neg h2] at hv
          by_cases h3 : (st.locks.any fun l => l.1 == jsTrim b.submission_id &&
              l.2 == hash (ip ++ ":" ++ salt)) = true
          · rw [if_pos h3] at hv
            exact hinv v hv
          · rw [if_neg h3] at hv
            by_cases h4 : (st.votes.any fun v => v.submission_id == jsTrim b.submission_id &&
                v.voter_id == voterOf cookieVoter newVoterId) = true
            · rw [if_pos h4] at hv
              exact hinv v hv
            · rw [if_neg h4] at hv
              have hv2 : v ∈ st.votes ∨ v =
                  { submission_id := jsTrim b.submission_id,
                    voter_id := voterOf cookieVoter newVoterId, rating := r,
                    ip_hash := hash (ip ++ ":" ++ salt), created_at := now } := by
                simpa using hv
              rcases hv2 with h | rfl
              · exact hinv v h
              · exact hr

/-- Witness for `vote_rating_truncation`: rating 9.7 from a fresh voter
is accepted and stored as the integer 9. -/
theorem vote_rating_truncation_witness :
    (voteHandler (fun s => s) "slt" wVState
      (some { submission_id := "s1", rating := some (mkRat 97 10) })
      (some "v2") "u2" "ip3" 5).2 = 200 ∧
    ({ submission_id := "s1", voter_id := "v2", rating := 9,
       ip_hash := "ip3:slt", created_at := 5 } : VoteRec) ∈
      (voteHandler (fun s => s) "slt" wVState
        (some { submission_id := "s1", rating := some (mkRat 97 10) })
        (some "v2") "u2" "ip3" 5).1.votes :=
  (vote_rating_truncation (fun s => s) "slt" wVState
    { submission_id := "s1", rating := some (mkRat 97 10) }
    (some "v2") "u2" "ip3" 5).2.1 (mkRat 97 10) rfl (by decide) (by decide)
    (by decide) (by decide) (by decide) (by decide)

/-- C9: for any state and any valid score request, the write succeeds —
no check of `claimed_by`, the claimant, or the prior status appears in
the precondition — the Score is upserted as a full replacement keyed on
the submission id with `total` the sum of the five sub-scores and
`approved` recomputed as `total ≥ 40`, rows for other submissions
survive unchanged, and every submission row with the scored id has its
status forced to `SCORED` whatever it was before. -/
theorem score_upsert_forces_scored (st : ScoreState) (b : ScoreBody) (now : Nat)
    (hsid : b.submission_id ≠ "")
    (hvalid : validScorePart b.lyrics = true ∧ validScorePart b.delivery = true ∧
      validScorePart b.production = true ∧ validScorePart b.originality = true ∧
      validScorePart b.replay = true) :
    (scoreHandler st b now).2 = 200 ∧
    scoreRecOf b now ∈ (scoreHandler st b now).1.scores ∧
    (scoreRecOf b now).total = scoreVal b.lyrics + scoreVal b.delivery +
      scoreVal b.production + scoreVal b.originality + scoreVal b.replay ∧
    ((scoreRecOf b now).approved = true ↔ 40 ≤ (scoreRecOf b now).total) ∧
    (∀ x ∈ st.scores, x.submission_id ≠ b.submission_id →
      x ∈ (scoreHandler st b now).1.scores) ∧
    (∀ x ∈ (scoreHandler st b now).1.scores,
      x = scoreRecOf b now ∨ (x ∈ st.scores ∧ x.submission_id ≠ b.submission_id)) ∧
    (scoreHandler st b now).1.submissions = st.submissions.map
      (fun s => if s.id = b.submission_id then { s with status := "SCORED" } else s) ∧
    (∀ s ∈ (scoreHandler st b now).1.submissions, s.id = b.submission_id →
      s.status = "SCORED") := by
  have hsb : (b.submission_id == "") = false := beq_eq_false_iff_ne.mpr hsid
  have hv : (validScorePart b.lyrics && validScorePart b.delivery &&
      validScorePart b.production && validScorePart b.originality &&
      validScorePart b.replay) = true := by
    simp [hvalid.1, hvalid.2.1, hvalid.2.2.1, hvalid.2.2.2.1, hvalid.2.2.2.2]
  have hres : scoreHandler st b now =
      ({ scores := upsertScore st.scores (scoreRecOf b now),
         submissions := st.submissions.map
           (fun s => if s.id == b.submission_id then { s with status := "SCORED" }
            else s) },
       200) := by
    unfold scoreHandler
    rw [if_neg (by simp [hsb]), if_neg (by simp [hv])]
  have hkey : (scoreRecOf b now).submission_id = b.submission_id := rfl
  refine ⟨by rw [hres], ?_, rfl, by simp [scoreRecOf], ?_, ?_, ?_, ?_⟩
  · rw [hres]
    show scoreRecOf b now ∈ upsertScore st.scores (scoreRecOf b now)
    unfold upsertScore
    by_cases hany : (st.scores.any
        (fun r => r.submission_id == (scoreRecOf b now).submission_id)) = true
    · rw [if_pos hany]
      obtain ⟨r0, hm, hb⟩ := List.any_eq_true.mp hany
      have himg : (fun r => if r.submission_id == (scoreRecOf b now).submission_id
          then scoreRecOf b now else r) r0 = scoreRecOf b now := by
        simp [hb]
      exact List.mem_map.mpr ⟨r0, hm, himg⟩
    · rw [if_neg hany]
      simp
  · intro x hx hne
    rw [hres]
    show x ∈ upsertScore st.scores (scoreRecOf b now)
    unfold upsertScore
    have hbx : (x.submission_id == (scoreRecOf b now).submission_id) = false := by
      rw [hkey]
      exact beq_eq_false_iff_ne.mpr hne
    by_cases hany : (st.scores.any
        (fun r => r.submission_id == (scoreRecOf b now).submission_id)) = true
    · rw [if_pos hany]
      have himg : (fun r => if r.submission_id == (scoreRecOf b now).submission_id
          then scoreRecOf b now else r) x = x := by
        simp [hbx]
      exact List.mem_map.mpr ⟨x, hx, himg⟩
    · rw [if_neg hany]
      exact List.mem_append_left _ hx
  · intro x hx
    rw [hres] at hx
    replace hx : x ∈ upsertScore st.scores (scoreRecOf b now) := hx
    unfold upsertScore at hx
    by_cases hany : (st.scores.any
        (fun r => r.submission_id == (scoreRecOf b now).submission_id)) = true
    · rw [if_pos hany] at hx
      obtain ⟨r0, hm, hfx⟩ := List.mem_map.mp hx
      by_cases hb : (r0.submission_id == (scoreRecOf b now).submission_id) = true
      · rw [if_pos hb] at hfx
        exact Or.inl hfx.symm
      · rw [if_neg hb] at hfx
        subst hfx
        refine Or.inr ⟨hm, ?_⟩
        rw [hkey] at hb
        simpa using hb
    · rw [if_neg hany] at hx
      rcases List.mem_append.mp hx with h | h
      · refine Or.inr ⟨h, ?_⟩
        rw [Bool.not_eq_true] at hany
        have := List.any_eq_false.mp hany x h
        rw [hkey] at this
        simpa using this
      · exact Or.inl (List.mem_singleton.mp h)
  · rw [hres]
    apply List.map_congr_left
    intro s _
    by_cases h : s.id = b.submission_id
    · simp [h]
    · simp [h]
  · intro s hs hid
    rw [hres] at hs
    obtain ⟨s0, hm, hf⟩ := List.mem_map.mp hs
    by_cases h : (s0.id == b.submission_id) = true
    · rw [if_pos h] at hf
      rw [← hf]
    · rw [if_neg h] at hf
      subst hf
      exact absurd hid (by simpa using h)

/-- Witness for `score_upsert_forces_scored`: scoring a submission that
is claimed by someone else succeeds and forces its status to SCORED. -/
theorem score_upsert_forces_scored_witness :
    (scoreHandler { scores := [], submissions := [claimedSub] } wScoreBody 7).2 = 200 ∧
    (∀ s ∈ (scoreHandler { scores := [], submissions := [claimedSub] }
        wScoreBody 7).1.submissions, s.id = "s1" → s.status = "SCORED") ∧
    claimedSub.claimed_by = some "other-judge" :=
  ⟨(score_upsert_forces_scored { scores := [], submissions := [claimedSub] }
      wScoreBody 7 (by decide) (by decide)).1,
   fun s hs hid => (score_upsert_forces_scored
      { scores := [], submissions := [claimedSub] } wScoreBody 7
      (by decide) (by decide)).2.2.2.2.2.2.2 s hs hid,
   rfl⟩
